import Mathlib

/-!
# rw_pci_conf.c: PCI configuration-space and BAR access tool

A shallow embedding of `src/rw_pci_conf.c` and theorems about it.

* C `int` values are mathematical integers (`Int`); every arithmetic result is
  wrapped to 32-bit two's complement with `i32`, and `u32` gives the bit
  pattern of an `int` as an `unsigned int`.
* System calls and port instructions are recorded as a trace of `Event`s.
* The 4096 bytes that `mmap` exposes are a `Window`; an access outside the
  window is undefined behaviour in C and is modelled by the absence of a
  return value.
-/

namespace RwPciConf

/-! ## C integers -/

/-- Bit pattern of a C `int` read as `unsigned int` (conversion modulo 2^32). -/
def u32 (x : Int) : Nat := (x % 4294967296).toNat

/-- Wrap a mathematical integer to the range of a 32-bit two's-complement `int`. -/
def i32 (x : Int) : Int := (x + 2147483648) % 4294967296 - 2147483648

/-- The C expression `x << n` on `int`. -/
def shl (x : Int) (n : Nat) : Int := i32 (x * 2 ^ n)

/-- A C string: the bytes before the terminating NUL. -/
abbrev CStr := List Nat

/-- The bytes of an ASCII string literal. -/
def cstr (s : String) : CStr := s.toList.map Char.toNat

/-- The `int` value of a character constant such as `'A'`. -/
def chr (c : Char) : Int := (c.toNat : Int)

/-- Value of a byte read through `char *` (plain `char` is signed on x86). -/
def schar (b : Nat) : Int := if b % 256 < 128 then (b % 256 : Int) else (b % 256 : Int) - 256

/-- Conversion of an `int` to `char` on assignment. -/
def toChar (x : Int) : Int := (x + 128) % 256 - 128

/-! ## Configuration address -/

/-- The macro `#define ADDR_CONFIG_REG 0x0CF8`. -/
def ADDR_CONFIG_REG : Nat := 0x0CF8

/-- The macro `#define DATA_CONFIG_REG 0x0CFC`. -/
def DATA_CONFIG_REG : Nat := 0x0CFC

/-- The macro `#define PCI_CONFIG_ADDR(bus, dev, fn, reg)
      (0x80000000 | (bus << 16) | (dev << 11) | (fn << 8) | (reg & ~3))`.
The constant `0x80000000` is `unsigned int`, so every operand is converted to
its 32-bit pattern; `~3` has the pattern `0xFFFFFFFC`. -/
def PCI_CONFIG_ADDR (bus dev fn reg : Int) : Nat :=
  0x80000000 ||| u32 (shl bus 16) ||| u32 (shl dev 11) ||| u32 (shl fn 8)
    ||| (u32 reg &&& 0xFFFFFFFC)

/-- The documented layout of a configuration address, read back as
(bus, device, function, register): bits 23-16, bits 15-11, bits 10-8, and
bits 7-2 times 4. This definition follows the specification text, not the code. -/
def decodeConfigAddress (a : Nat) : Nat × Nat × Nat × Nat :=
  ((a >>> 16) &&& 0xFF, (a >>> 11) &&& 0x1F, (a >>> 8) &&& 0x7, ((a >>> 2) &&& 0x3F) * 4)

/-! ## Events -/

/-- What the program does to the outside world, in program order. -/
inductive Event where
  /-- the help text printed by `usage()` -/
  | usage
  | iopl (level : Int)
  | outl (value port : Nat)
  /-- the read `inl(port)` together with the value the port returned -/
  | inl (port value : Nat)
  /-- a call of `printf` with its format and the numbers it shows -/
  | printf (fmt : String) (args : List Int)
  | perror (msg : String)
  /-- the call `operaMem(bar, offset, modValue, isWrite)` made by `main` -/
  | operaMem (bar offset modValue isWrite : Int)
  /-- the call `open("/dev/mem", O_RDWR)` and whether it succeeded -/
  | openDevMem (ok : Bool)
  /-- the call `mmap(0, length, ..., fd, offset)` and whether it succeeded -/
  | mmap (length : Nat) (offset : Int) (ok : Bool)
  /-- a 4-byte read `*((int *)(mem + offset))` and the value read -/
  | load (offset : Int) (value : Nat)
  /-- the copy `memcpy(mem + offset, &modValue, 4)` -/
  | memcpy (offset : Int) (value : Nat)
  | munmap (length : Nat)
  | close
  deriving DecidableEq

/-- Port instructions among the events. -/
def isPortOp : Event → Bool
  | .outl _ _ => true
  | .inl _ _ => true
  | _ => false

/-- Accesses to the mapped window among the events. -/
def isMemAccess : Event → Bool
  | .load _ _ => true
  | .memcpy _ _ => true
  | _ => false

/-- Output of a value with `printf` among the events. -/
def isPrintf : Event → Bool
  | .printf _ _ => true
  | _ => false

/-- Resources of the process: the descriptor of `/dev/mem` and the mapping. -/
structure Held where
  fd : Bool
  map : Bool
  deriving DecidableEq

/-- Effect of one event on the resources held. -/
def Held.step (h : Held) : Event → Held
  | .openDevMem true => { h with fd := true }
  | .mmap _ _ true => { h with map := true }
  | .munmap _ => { h with map := false }
  | .close => { h with fd := false }
  | _ => h

/-- Resources held after a trace, starting with none. -/
def heldAfter (t : List Event) : Held := t.foldl Held.step ⟨false, false⟩

/-! ## The mapped window -/

/-- The 4096 bytes of physical memory exposed by the mapping. -/
abbrev Window := Fin 4096 → Fin 256

/-- Byte `i` of the window (0 outside, never used there). -/
def byteAt (w : Window) (i : Nat) : Nat :=
  if h : i < 4096 then (w ⟨i, h⟩).val else 0

/-- Byte `k` of a 32-bit value in little-endian order. -/
def leByte (v : Nat) (k : Nat) : Fin 256 :=
  ⟨v / 256 ^ k % 256, Nat.mod_lt _ (by decide)⟩

/-- The read `*((int *)(mem + offset))`: the little-endian 32-bit value of the 4 bytes at
`offset`; no value when the access leaves the 4096-byte mapping. -/
def loadInt (w : Window) (offset : Int) : Option Nat :=
  if 0 ≤ offset ∧ offset + 3 < 4096 then
    let o := offset.toNat
    some (byteAt w o + 256 * byteAt w (o + 1) + 65536 * byteAt w (o + 2)
      + 16777216 * byteAt w (o + 3))
  else none

/-- The copy `memcpy(mem + offset, &modValue, 4)` with the 32-bit pattern `v` of
`modValue`; no result when the access leaves the 4096-byte mapping. -/
def storeInt (w : Window) (offset : Int) (v : Nat) : Option Window :=
  if 0 ≤ offset ∧ offset + 3 < 4096 then
    let o := offset.toNat
    some (fun i =>
      if i.val = o then leByte v 0
      else if i.val = o + 1 then leByte v 1
      else if i.val = o + 2 then leByte v 2
      else if i.val = o + 3 then leByte v 3
      else w i)
  else none

/-! ## operaMem -/

/-- The physical-memory device as `operaMem` meets it: whether `open` and `mmap`
succeed, and the bytes the mapping exposes. -/
structure DevMem where
  openOk : Bool
  mmapOk : Bool
  window : Window

/-- Outcome of `operaMem`: the return value (`none` when the access left the
mapping), the events, and the window afterwards. -/
structure MemResult where
  ret : Option Int
  trace : List Event
  window : Window

/-- The function `int operaMem(int bar, int offset, int modValue, int isWrite)`. -/
def operaMem (d : DevMem) (bar offset modValue isWrite : Int) : MemResult :=
  if d.openOk = false then
    { ret := some (-1)
      trace := [.openDevMem false, .perror "open error\n"]
      window := d.window }
  else if d.mmapOk = false then
    { ret := some 1
      trace := [.openDevMem true, .mmap 4096 bar false, .perror "mmap error:\n"]
      window := d.window }
  else
    let t0 : List Event := [.openDevMem true, .mmap 4096 bar true]
    match loadInt d.window offset with
    | none => { ret := none, trace := t0, window := d.window }
    | some value =>
      let t1 := t0 ++ [.load offset value,
        .printf "The value at 0x%x is 0x%x\n" [u32 (bar + offset), value]]
      if isWrite = 1 then
        let t2 := t1 ++ [.printf "Write value 0x%x at 0x%x\n" [u32 modValue, u32 (bar + offset)]]
        match storeInt d.window offset (u32 modValue) with
        | none => { ret := none, trace := t2, window := d.window }
        | some w =>
          match loadInt w offset with
          | none => { ret := none, trace := t2 ++ [.memcpy offset (u32 modValue)], window := w }
          | some reread =>
            { ret := some 0
              trace := t2 ++ [.memcpy offset (u32 modValue), .load offset reread,
                .printf "Reread the value at 0x%x is 0x%x\n" [u32 (bar + offset), reread],
                .munmap 4096, .close]
              window := w }
      else
        { ret := some 0, trace := t1 ++ [.munmap 4096, .close], window := d.window }

/-! ## parseInt -/

/-- The `while` loop of `parseInt`, with the accumulated `value`. -/
def parseIntLoop : CStr → Int → Int
  | [], value => value
  | b :: str, value =>
    let tmpChar := schar b
    if tmpChar = 0 then value
    else
      let tmpChar :=
        if chr 'A' ≤ tmpChar ∧ tmpChar ≤ chr 'F' then toChar (tmpChar - chr 'A' + 10)
        else if chr 'a' ≤ tmpChar ∧ tmpChar ≤ chr 'f' then toChar (tmpChar - chr 'a' + 10)
        else toChar (tmpChar - chr '0')
      parseIntLoop str (i32 (value * 16 + tmpChar))

/-- The function `int parseInt(char *str)`. -/
def parseInt (str : CStr) : Int := parseIntLoop str 0

/-- Value of one hexadecimal digit, by table lookup (specification side). -/
def hexDigitValue (b : Nat) : Option Nat :=
  let lower := (cstr "0123456789abcdef").indexOf b
  let upper := (cstr "0123456789ABCDEF").indexOf b
  if lower < 16 then some lower else if upper < 16 then some upper else none

/-- Positional base-16 value of a numeral made of hexadecimal digits
(specification side): the first digit is the most significant. -/
def hexNumeralValue : CStr → Option Nat
  | [] => some 0
  | b :: rest =>
    match hexDigitValue b, hexNumeralValue rest with
    | some d, some r => some (d * 16 ^ rest.length + r)
    | _, _ => none

/-! ## main -/

/-- The local variables of `main` set by the option loop. -/
structure Vars where
  addr : Int
  bus : Int
  dev : Int
  fn : Int
  reg : Int
  port : Int
  value : Int
  isWrite : Int
  isReadBar : Int
  deriving DecidableEq

/-- Initial values: `addr = 0, bus = 0, dev = 0, fn = 0, reg = 0, port = 0,
value = 0, isWrite = 0, isReadBar = 0`. -/
def Vars.init : Vars := ⟨0, 0, 0, 0, 0, 0, 0, 0, 0⟩

/-- The `switch (opt)` of the option loop; `none` when `usage()` is called,
which exits the process. -/
def optCase (atoi : CStr → Int) (v : Vars) (opt : Char) (optarg : CStr) : Option Vars :=
  if opt = 'a' then some { v with addr := parseInt optarg }
  else if opt = 'b' then some { v with bus := atoi optarg }
  else if opt = 'd' then some { v with dev := atoi optarg }
  else if opt = 'f' then some { v with fn := atoi optarg }
  else if opt = 'r' then some { v with reg := parseInt optarg }
  else if opt = 'p' then some { v with port := atoi optarg, isReadBar := 1 }
  else if opt = 'v' then some { v with value := parseInt optarg, isWrite := 1 }
  else none

/-- The loop `while ((opt = getopt(argc, argv, options)) != -1)`, over the
options `getopt` yields in order, each with its `optarg`. -/
def getoptLoop (atoi : CStr → Int) : List (Char × CStr) → Vars → Option Vars
  | [], v => some v
  | o :: rest, v =>
    match optCase atoi v o.1 o.2 with
    | none => none
    | some v1 => getoptLoop atoi rest v1

/-- The machine `main` runs on: libc `atoi`, the configuration double-word the
data port returns for the address latched in the address port, and the
physical-memory device. The process is taken to hold I/O privilege. -/
structure Machine where
  atoi : CStr → Int
  pciConf : Nat → Nat
  devMem : DevMem

/-- The write `outl(value, port)`: the new content of the address latch. -/
def outl (latch : Nat) (value port : Nat) : Nat :=
  if port = ADDR_CONFIG_REG then value else latch

/-- The read `inl(port)`: the 32-bit value the port returns. -/
def inl (m : Machine) (latch : Nat) (port : Nat) : Nat :=
  if port = DATA_CONFIG_REG then m.pciConf latch % 4294967296 else 0xFFFFFFFF

/-- The loop `for (i = 0; i < 64; i += 4)` of `main`, from a given `i`. -/
def dumpLoop (m : Machine) (bus dev fn : Int) (latch : Nat) (i : Nat) : List Event :=
  if i < 64 then
    let a := PCI_CONFIG_ADDR bus dev fn i
    let latch := outl latch a ADDR_CONFIG_REG
    let val := inl m latch DATA_CONFIG_REG
    [.outl a ADDR_CONFIG_REG, .inl DATA_CONFIG_REG val,
      .printf "PCI:Bus %d, DEV %d, FUNC %d, REG %x, Value is %x\n" [bus, dev, fn, i, val]]
      ++ dumpLoop m bus dev fn latch (i + 4)
  else []
termination_by 64 - i
decreasing_by omega

/-- Outcome of `main`: the exit status (`none` when `operaMem` left the
mapping), the events, and the window afterwards. -/
structure MainResult where
  exit : Option Int
  trace : List Event
  window : Window

/-- The branch of `main` that reads BAR0 and calls `operaMem`; both the
`isReadBar` branch (`modValue = 0`, `isWrite = 0`) and the write branch
(`modValue = value`, `isWrite = 1`) have this body. `val` is the value of the
variable `val` on entry. -/
def barAccess (m : Machine) (v : Vars) (val : Nat) (modValue isWrite : Int) : MainResult :=
  let pointAddr : Int := i32 ((val : Int) + i32 (v.port * 0x1000))
  let a := PCI_CONFIG_ADDR v.bus v.dev v.fn 0x10
  let latch := outl 0 a ADDR_CONFIG_REG
  let val := inl m latch DATA_CONFIG_REG &&& 0xfffffff0
  let r := operaMem m.devMem pointAddr v.addr modValue isWrite
  { exit := r.ret.map (fun _ => 0)
    trace := [.iopl 3, .outl a ADDR_CONFIG_REG, .inl DATA_CONFIG_REG (inl m latch DATA_CONFIG_REG),
        .printf "The base address value is 0x%x\n" [val],
        .printf "The offset address value is 0x%x\n" [u32 (pointAddr + v.addr)],
        .operaMem pointAddr v.addr modValue isWrite] ++ r.trace
    window := r.window }

/-- The body of `main` after the option loop. -/
def mainBody (m : Machine) (v : Vars) : MainResult :=
  let val : Nat := 0
  if v.isWrite = 0 then
    if v.isReadBar = 0 then
      { exit := some 0
        trace := .iopl 3 :: dumpLoop m v.bus v.dev v.fn 0 0
        window := m.devMem.window }
    else barAccess m v val 0 0
  else barAccess m v val v.value 1

/-- The function `int main(int argc, char **argv)`, over the options `getopt` yields. -/
def main (m : Machine) (opts : List (Char × CStr)) : MainResult :=
  match getoptLoop m.atoi opts Vars.init with
  | none => { exit := some (-1), trace := [.usage], window := m.devMem.window }
  | some v => mainBody m v

/-- A stand-in for libc `atoi` on unsigned decimal numerals, for concrete runs. -/
def atoiDec (s : CStr) : Int :=
  s.foldl (fun acc b => acc * 10 + ((b : Int) - 48)) 0

/-- The register offsets 0, 4, ..., 60 of the 64-byte header, in increasing
order (specification side). -/
def dumpOffsets : List Nat := [0, 4, 8, 12, 16, 20, 24, 28, 32, 36, 40, 44, 48, 52, 56, 60]


/-! ## Configuration address: arithmetic form -/

set_option maxRecDepth 100000 in
theorem and_mask_byte (r : Nat) (h : r < 256) : r &&& 0xFFFFFFFC = r / 4 * 4 := by
  revert r
  decide

theorem u32_shl_small (x : Nat) (n : Nat) (h : x * 2 ^ n < 2147483648) :
    u32 (shl x n) = x * 2 ^ n := by
  have e : ((x : Int) * 2 ^ n) = ((x * 2 ^ n : Nat) : Int) := by push_cast; rfl
  unfold u32 shl i32
  rw [e]
  omega

theorem or_eq_add_of_lt (k a b : Nat) (h : b < 2 ^ k) : a * 2 ^ k ||| b = a * 2 ^ k + b := by
  rw [Nat.mul_comm a]
  exact (Nat.mul_add_lt_is_or h a).symm

/-- For field values in range the macro is the sum of the shifted fields. -/
theorem config_addr_eq_sum (bus dev fn reg : Nat) (hb : bus ≤ 255) (hd : dev ≤ 31)
    (hf : fn ≤ 7) (hr : reg ≤ 255) :
    PCI_CONFIG_ADDR bus dev fn reg
      = 2147483648 + bus * 65536 + dev * 2048 + fn * 256 + reg / 4 * 4 := by
  have e1 : u32 (shl bus 16) = bus * 2 ^ 16 := u32_shl_small bus 16 (by omega)
  have e2 : u32 (shl dev 11) = dev * 2 ^ 11 := u32_shl_small dev 11 (by omega)
  have e3 : u32 (shl fn 8) = fn * 2 ^ 8 := u32_shl_small fn 8 (by omega)
  have e4 : u32 (reg : Int) = reg := by unfold u32; omega
  have e0 : (0x80000000 : Nat) = 1 * 2 ^ 31 := by norm_num
  unfold PCI_CONFIG_ADDR
  rw [e1, e2, e3, e4, and_mask_byte reg (by omega), e0]
  simp only [Nat.or_assoc]
  rw [or_eq_add_of_lt 8 fn _ (by omega), or_eq_add_of_lt 11 dev _ (by omega),
    or_eq_add_of_lt 16 bus _ (by omega), or_eq_add_of_lt 31 1 _ (by omega)]
  omega

/-- C1: for bus in 0..255, device in 0..31, function in 0..7 and a register that
is a multiple of 4 in 0..252, `PCI_CONFIG_ADDR` is a 32-bit value with bit 31
set, and decoding it by the documented layout gives back (bus, dev, fn, reg). -/
theorem config_addr_roundtrip (bus dev fn reg : Nat) (hb : bus ≤ 255) (hd : dev ≤ 31)
    (hf : fn ≤ 7) (hr : reg ≤ 252) (h4 : reg % 4 = 0) :
    (PCI_CONFIG_ADDR bus dev fn reg).testBit 31 = true
      ∧ PCI_CONFIG_ADDR bus dev fn reg < 2 ^ 32
      ∧ decodeConfigAddress (PCI_CONFIG_ADDR bus dev fn reg) = (bus, dev, fn, reg) := by
  rw [config_addr_eq_sum bus dev fn reg hb hd hf (by omega)]
  have m1 : (0xFF : Nat) = 2 ^ 8 - 1 := by norm_num
  have m2 : (0x1F : Nat) = 2 ^ 5 - 1 := by norm_num
  have m3 : (0x7 : Nat) = 2 ^ 3 - 1 := by norm_num
  have m4 : (0x3F : Nat) = 2 ^ 6 - 1 := by norm_num
  refine ⟨?_, by omega, ?_⟩
  · rw [Nat.testBit_to_div_mod]
    simp only [decide_eq_true_eq]
    omega
  · unfold decodeConfigAddress
    rw [m1, m2, m3, m4]
    simp only [Nat.and_pow_two_sub_one_eq_mod, Nat.shiftRight_eq_div_pow, Prod.mk.injEq]
    omega

/-- Instance of C1 at bus 0, device 25, function 0, register 0x10. -/
theorem config_addr_roundtrip_witness :
    (PCI_CONFIG_ADDR 0 25 0 16).testBit 31 = true
      ∧ PCI_CONFIG_ADDR 0 25 0 16 < 2 ^ 32
      ∧ decodeConfigAddress (PCI_CONFIG_ADDR 0 25 0 16) = (0, 25, 0, 16) :=
  config_addr_roundtrip 0 25 0 16 (by decide) (by decide) (by decide) (by decide) (by decide)

/-- C6: for every register in 0..255 and valid bus, device and function,
`PCI_CONFIG_ADDR` equals its value at the register rounded down to a multiple
of 4; registers 2 and 3 give the address of register 0; the low two bits of the
result are zero. -/
theorem config_addr_alignment (bus dev fn reg : Nat) (hb : bus ≤ 255) (hd : dev ≤ 31)
    (hf : fn ≤ 7) (hr : reg ≤ 255) :
    PCI_CONFIG_ADDR bus dev fn reg = PCI_CONFIG_ADDR bus dev fn ((reg / 4 * 4 : Nat) : Int)
      ∧ PCI_CONFIG_ADDR bus dev fn 0x02 = PCI_CONFIG_ADDR bus dev fn 0x00
      ∧ PCI_CONFIG_ADDR bus dev fn 0x03 = PCI_CONFIG_ADDR bus dev fn 0x00
      ∧ PCI_CONFIG_ADDR bus dev fn reg &&& 3 = 0 := by
  have h2 := config_addr_eq_sum bus dev fn 2 hb hd hf (by omega)
  have h3 := config_addr_eq_sum bus dev fn 3 hb hd hf (by omega)
  have h0 := config_addr_eq_sum bus dev fn 0 hb hd hf (by omega)
  have m : (3 : Nat) = 2 ^ 2 - 1 := by norm_num
  simp only [Nat.cast_ofNat, Nat.cast_zero] at h2 h3 h0
  refine ⟨?_, ?_, ?_, ?_⟩
  · rw [config_addr_eq_sum bus dev fn reg hb hd hf hr,
      config_addr_eq_sum bus dev fn (reg / 4 * 4) hb hd hf (by omega)]
    omega
  · rw [h2, h0]
  · rw [h3, h0]
  · rw [config_addr_eq_sum bus dev fn reg hb hd hf hr, m, Nat.and_pow_two_sub_one_eq_mod]
    omega

/-- Instance of C6 at bus 0, device 25, function 0, register 0x13. -/
theorem config_addr_alignment_witness :
    PCI_CONFIG_ADDR 0 25 0 0x13 = PCI_CONFIG_ADDR 0 25 0 ((0x13 / 4 * 4 : Nat) : Int)
      ∧ PCI_CONFIG_ADDR 0 25 0 0x02 = PCI_CONFIG_ADDR 0 25 0 0x00
      ∧ PCI_CONFIG_ADDR 0 25 0 0x03 = PCI_CONFIG_ADDR 0 25 0 0x00
      ∧ PCI_CONFIG_ADDR 0 25 0 0x13 &&& 3 = 0 :=
  config_addr_alignment 0 25 0 0x13 (by decide) (by decide) (by decide) (by decide)


/-! ## operaMem -/

theorem loadInt_inside (w : Window) (offset : Int) (h0 : 0 ≤ offset) (h1 : offset ≤ 4092) :
    loadInt w offset = some (byteAt w offset.toNat + 256 * byteAt w (offset.toNat + 1)
      + 65536 * byteAt w (offset.toNat + 2) + 16777216 * byteAt w (offset.toNat + 3)) := by
  unfold loadInt
  rw [if_pos ⟨h0, by omega⟩]

theorem storeInt_inside (w : Window) (offset : Int) (v : Nat) (h0 : 0 ≤ offset)
    (h1 : offset ≤ 4092) :
    storeInt w offset v = some (fun i =>
      if i.val = offset.toNat then leByte v 0
      else if i.val = offset.toNat + 1 then leByte v 1
      else if i.val = offset.toNat + 2 then leByte v 2
      else if i.val = offset.toNat + 3 then leByte v 3
      else w i) := by
  unfold storeInt
  rw [if_pos ⟨h0, by omega⟩]

theorem u32_lt (x : Int) : u32 x < 4294967296 := by
  unfold u32; omega

theorem u32_i32_of_lt (V : Nat) (h : V < 4294967296) : u32 (i32 V) = V := by
  unfold u32 i32; omega

/-- Reading back the four bytes just stored gives the stored 32-bit value. -/
theorem loadInt_storeInt (w w1 : Window) (offset : Int) (v : Nat) (h0 : 0 ≤ offset)
    (h1 : offset ≤ 4092) (hv : v < 4294967296) (hs : storeInt w offset v = some w1) :
    loadInt w1 offset = some v := by
  rw [storeInt_inside w offset v h0 h1] at hs
  injection hs with hs
  subst hs
  rw [loadInt_inside _ offset h0 h1]
  have k : offset.toNat ≤ 4092 := by omega
  have b0 : offset.toNat < 4096 := by omega
  have b1 : offset.toNat + 1 < 4096 := by omega
  have b2 : offset.toNat + 2 < 4096 := by omega
  have b3 : offset.toNat + 3 < 4096 := by omega
  simp only [byteAt, b0, b1, b2, b3, dite_true, leByte]
  simp only [if_true, Nat.add_right_eq_self, Nat.add_right_cancel_iff, OfNat.ofNat_ne_zero,
    OfNat.ofNat_ne_one, if_false, reduceCtorEq, Nat.reduceEqDiff]
  congr 1
  omega


/-- The trace and result of `operaMem` in read mode on a mapped window. -/
theorem operaMem_read_eq (d : DevMem) (bar offset modValue isWrite : Int)
    (ho : d.openOk = true) (hm : d.mmapOk = true)
    (hw : isWrite ≠ 1) (pre : Nat) (hpre : loadInt d.window offset = some pre) :
    (operaMem d bar offset modValue isWrite).ret = some 0
      ∧ (operaMem d bar offset modValue isWrite).window = d.window
      ∧ (operaMem d bar offset modValue isWrite).trace
        = [.openDevMem true, .mmap 4096 bar true, .load offset pre,
            .printf "The value at 0x%x is 0x%x\n" [(u32 (bar + offset) : Int), (pre : Int)],
            .munmap 4096, .close] := by
  unfold operaMem
  simp [ho, hm, hpre, hw]

/-- The trace and result of `operaMem` in write mode on a mapped window. -/
theorem operaMem_write_eq (d : DevMem) (bar offset modValue : Int)
    (ho : d.openOk = true) (hm : d.mmapOk = true) (h0 : 0 ≤ offset) (h1 : offset ≤ 4092)
    (pre : Nat) (hpre : loadInt d.window offset = some pre)
    (w1 : Window) (hs : storeInt d.window offset (u32 modValue) = some w1) :
    (operaMem d bar offset modValue 1).ret = some 0
      ∧ (operaMem d bar offset modValue 1).window = w1
      ∧ (operaMem d bar offset modValue 1).trace
        = [.openDevMem true, .mmap 4096 bar true, .load offset pre,
            .printf "The value at 0x%x is 0x%x\n" [(u32 (bar + offset) : Int), (pre : Int)],
            .printf "Write value 0x%x at 0x%x\n" [(u32 modValue : Int), (u32 (bar + offset) : Int)],
            .memcpy offset (u32 modValue), .load offset (u32 modValue),
            .printf "Reread the value at 0x%x is 0x%x\n"
              [(u32 (bar + offset) : Int), (u32 modValue : Int)],
            .munmap 4096, .close] := by
  have hl := loadInt_storeInt d.window w1 offset (u32 modValue) h0 h1 (u32_lt modValue) hs
  unfold operaMem
  simp [ho, hm, hpre, hs, hl]

/-- C4: over a mapped 4096-byte window, for every offset in 0..4092 and every
32-bit value V, `operaMem` in write mode returns normally with every access
inside the window, reports V as the reread value, and an immediately following
read-mode `operaMem` at the same base and offset reports V. -/
theorem operaMem_write_then_read (d : DevMem) (bar offset : Int) (V : Nat)
    (modValue2 isWrite2 : Int)
    (ho : d.openOk = true) (hm : d.mmapOk = true) (h0 : 0 ≤ offset) (h1 : offset ≤ 4092)
    (hV : V < 4294967296) (hr : isWrite2 ≠ 1) :
    (operaMem d bar offset (i32 V) 1).ret = some 0
      ∧ (∀ o x, (Event.load o x ∈ (operaMem d bar offset (i32 V) 1).trace
            ∨ Event.memcpy o x ∈ (operaMem d bar offset (i32 V) 1).trace)
          → 0 ≤ o ∧ o + 3 < 4096)
      ∧ Event.printf "Reread the value at 0x%x is 0x%x\n" [(u32 (bar + offset) : Int), (V : Int)]
          ∈ (operaMem d bar offset (i32 V) 1).trace
      ∧ (operaMem { d with window := (operaMem d bar offset (i32 V) 1).window }
            bar offset modValue2 isWrite2).ret = some 0
      ∧ Event.printf "The value at 0x%x is 0x%x\n" [(u32 (bar + offset) : Int), (V : Int)]
          ∈ (operaMem { d with window := (operaMem d bar offset (i32 V) 1).window }
              bar offset modValue2 isWrite2).trace := by
  have hpre := loadInt_inside d.window offset h0 h1
  have hs := storeInt_inside d.window offset (u32 (i32 V)) h0 h1
  obtain ⟨e1, e2, e3⟩ := operaMem_write_eq d bar offset (i32 V) ho hm h0 h1 _ hpre _ hs
  have hl := loadInt_storeInt d.window _ offset (u32 (i32 V)) h0 h1 (u32_lt _) hs
  generalize (operaMem d bar offset (i32 V) 1) = r at e1 e2 e3 ⊢
  rw [← e2] at hl
  rw [u32_i32_of_lt V hV] at hl e3
  obtain ⟨f1, _, f3⟩ := operaMem_read_eq { d with window := r.window }
    bar offset modValue2 isWrite2 ho hm hr V hl
  refine ⟨e1, ?_, ?_, f1, ?_⟩
  · intro o x hx
    rw [e3] at hx
    simp at hx
    omega
  · rw [e3]; simp
  · rw [f3]; simp

/-- Instance of C4 on a zeroed window at the last valid offset 4092 with V = 0x1234. -/
theorem operaMem_write_then_read_witness :
    (operaMem ⟨true, true, fun _ => 0⟩ 0x1000 4092 (i32 (0x1234 : Nat)) 1).ret = some 0
      ∧ (∀ o x, (Event.load o x ∈ (operaMem ⟨true, true, fun _ => 0⟩ 0x1000 4092 (i32 (0x1234 : Nat)) 1).trace
            ∨ Event.memcpy o x ∈ (operaMem ⟨true, true, fun _ => 0⟩ 0x1000 4092 (i32 (0x1234 : Nat)) 1).trace)
          → 0 ≤ o ∧ o + 3 < 4096)
      ∧ Event.printf "Reread the value at 0x%x is 0x%x\n" [(u32 (0x1000 + 4092) : Int), ((0x1234 : Nat) : Int)]
          ∈ (operaMem ⟨true, true, fun _ => 0⟩ 0x1000 4092 (i32 (0x1234 : Nat)) 1).trace
      ∧ (operaMem { (⟨true, true, fun _ => 0⟩ : DevMem) with
              window := (operaMem ⟨true, true, fun _ => 0⟩ 0x1000 4092 (i32 (0x1234 : Nat)) 1).window }
            0x1000 4092 0 0).ret = some 0
      ∧ Event.printf "The value at 0x%x is 0x%x\n" [(u32 (0x1000 + 4092) : Int), ((0x1234 : Nat) : Int)]
          ∈ (operaMem { (⟨true, true, fun _ => 0⟩ : DevMem) with
              window := (operaMem ⟨true, true, fun _ => 0⟩ 0x1000 4092 (i32 (0x1234 : Nat)) 1).window }
              0x1000 4092 0 0).trace :=
  operaMem_write_then_read ⟨true, true, fun _ => 0⟩ 0x1000 4092 0x1234 0 0 rfl rfl
    (by norm_num) (by norm_num) (by norm_num) (by norm_num)

/-- C9: over a mapped 4096-byte window and an offset in 0..4092, `operaMem` with
`isWrite` different from 1 leaves the window unchanged and reports the
little-endian 32-bit value of the 4 bytes at the offset; with `isWrite = 1` it
reports that pre-write value first, sets the 4 bytes at offset..offset+3 to the
little-endian bytes of `modValue`, and leaves every other byte unchanged. -/
theorem operaMem_frame (d : DevMem) (bar offset modValue isWrite : Int)
    (ho : d.openOk = true) (hm : d.mmapOk = true) (h0 : 0 ≤ offset) (h1 : offset ≤ 4092) :
    (isWrite ≠ 1 →
        (operaMem d bar offset modValue isWrite).window = d.window
        ∧ (operaMem d bar offset modValue isWrite).trace.filter isPrintf
          = [.printf "The value at 0x%x is 0x%x\n" [(u32 (bar + offset) : Int),
              ((byteAt d.window offset.toNat + 256 * byteAt d.window (offset.toNat + 1)
                + 65536 * byteAt d.window (offset.toNat + 2)
                + 16777216 * byteAt d.window (offset.toNat + 3) : Nat) : Int)]]
        ∧ (operaMem d bar offset modValue isWrite).trace.filter isMemAccess
          = [.load offset (byteAt d.window offset.toNat + 256 * byteAt d.window (offset.toNat + 1)
                + 65536 * byteAt d.window (offset.toNat + 2)
                + 16777216 * byteAt d.window (offset.toNat + 3))])
      ∧ (isWrite = 1 →
        ((operaMem d bar offset modValue isWrite).trace.filter isPrintf).head?
          = some (.printf "The value at 0x%x is 0x%x\n" [(u32 (bar + offset) : Int),
              ((byteAt d.window offset.toNat + 256 * byteAt d.window (offset.toNat + 1)
                + 65536 * byteAt d.window (offset.toNat + 2)
                + 16777216 * byteAt d.window (offset.toNat + 3) : Nat) : Int)])
        ∧ (∀ k, k < 4 → byteAt (operaMem d bar offset modValue isWrite).window (offset.toNat + k)
            = u32 modValue / 256 ^ k % 256)
        ∧ (∀ i : Fin 4096, (i.val < offset.toNat ∨ offset.toNat + 3 < i.val) →
            (operaMem d bar offset modValue isWrite).window i = d.window i)) := by
  have hpre := loadInt_inside d.window offset h0 h1
  have hs := storeInt_inside d.window offset (u32 modValue) h0 h1
  constructor
  · intro hw
    obtain ⟨_, e2, e3⟩ := operaMem_read_eq d bar offset modValue isWrite ho hm hw _ hpre
    refine ⟨e2, ?_, ?_⟩
    · rw [e3]; simp [List.filter, isPrintf]
    · rw [e3]; simp [List.filter, isMemAccess]
  · intro hw
    subst hw
    obtain ⟨_, e2, e3⟩ := operaMem_write_eq d bar offset modValue ho hm h0 h1 _ hpre _ hs
    refine ⟨?_, ?_, ?_⟩
    · rw [e3]; simp [List.filter, isPrintf]
    · intro k hk
      rw [e2]
      have b : offset.toNat + k < 4096 := by omega
      simp only [byteAt, b, dite_true, leByte]
      have hk4 : k = 0 ∨ k = 1 ∨ k = 2 ∨ k = 3 := by omega
      rcases hk4 with rfl | rfl | rfl | rfl <;> simp
    · intro i hi
      rw [e2]
      have a0 : i.val ≠ offset.toNat := by omega
      have a1 : i.val ≠ offset.toNat + 1 := by omega
      have a2 : i.val ≠ offset.toNat + 2 := by omega
      have a3 : i.val ≠ offset.toNat + 3 := by omega
      simp only [a0, a1, a2, a3, if_false]

/-- Instance of C9 on a window filled with 7, at offset 0 in read mode. -/
theorem operaMem_frame_witness :
    ((0 : Int) ≠ 1 →
        (operaMem ⟨true, true, fun _ => 7⟩ 0x1000 0 0x1234 0).window = (fun _ => 7)
        ∧ (operaMem ⟨true, true, fun _ => 7⟩ 0x1000 0 0x1234 0).trace.filter isPrintf
          = [.printf "The value at 0x%x is 0x%x\n" [(u32 (0x1000 + 0) : Int),
              ((byteAt (fun _ => 7) (0 : Int).toNat + 256 * byteAt (fun _ => 7) ((0 : Int).toNat + 1)
                + 65536 * byteAt (fun _ => 7) ((0 : Int).toNat + 2)
                + 16777216 * byteAt (fun _ => 7) ((0 : Int).toNat + 3) : Nat) : Int)]]
        ∧ (operaMem ⟨true, true, fun _ => 7⟩ 0x1000 0 0x1234 0).trace.filter isMemAccess
          = [.load 0 (byteAt (fun _ => 7) (0 : Int).toNat + 256 * byteAt (fun _ => 7) ((0 : Int).toNat + 1)
                + 65536 * byteAt (fun _ => 7) ((0 : Int).toNat + 2)
                + 16777216 * byteAt (fun _ => 7) ((0 : Int).toNat + 3))])
      ∧ ((0 : Int) = 1 →
        ((operaMem ⟨true, true, fun _ => 7⟩ 0x1000 0 0x1234 0).trace.filter isPrintf).head?
          = some (.printf "The value at 0x%x is 0x%x\n" [(u32 (0x1000 + 0) : Int),
              ((byteAt (fun _ => 7) (0 : Int).toNat + 256 * byteAt (fun _ => 7) ((0 : Int).toNat + 1)
                + 65536 * byteAt (fun _ => 7) ((0 : Int).toNat + 2)
                + 16777216 * byteAt (fun _ => 7) ((0 : Int).toNat + 3) : Nat) : Int)])
        ∧ (∀ k, k < 4 → byteAt (operaMem ⟨true, true, fun _ => 7⟩ 0x1000 0 0x1234 0).window ((0 : Int).toNat + k)
            = u32 0x1234 / 256 ^ k % 256)
        ∧ (∀ i : Fin 4096, (i.val < (0 : Int).toNat ∨ (0 : Int).toNat + 3 < i.val) →
            (operaMem ⟨true, true, fun _ => 7⟩ 0x1000 0 0x1234 0).window i = (fun _ => 7) i)) :=
  operaMem_frame ⟨true, true, fun _ => 7⟩ 0x1000 0 0x1234 0 rfl rfl (by decide) (by decide)


/-- On the success path with an access inside the window nothing stays held:
the mapping is unmapped and the descriptor closed before `operaMem` returns. -/
theorem operaMem_success_releases (d : DevMem) (bar offset modValue isWrite : Int)
    (ho : d.openOk = true) (hm : d.mmapOk = true) (h0 : 0 ≤ offset) (h1 : offset ≤ 4092) :
    heldAfter (operaMem d bar offset modValue isWrite).trace = ⟨false, false⟩ := by
  have hpre := loadInt_inside d.window offset h0 h1
  have hs := storeInt_inside d.window offset (u32 modValue) h0 h1
  by_cases hw : isWrite = 1
  · subst hw
    rw [(operaMem_write_eq d bar offset modValue ho hm h0 h1 _ hpre _ hs).2.2]
    rfl
  · rw [(operaMem_read_eq d bar offset modValue isWrite ho hm hw _ hpre).2.2]
    rfl

/-- C5 (violated by the code): when `open` succeeds and `mmap` fails, `operaMem`
returns 1 after the events open, mmap, perror; `close` is never called and the
descriptor of `/dev/mem` is still held at the return. -/
theorem operaMem_mmap_failure_keeps_fd (w : Window) (bar offset modValue isWrite : Int) :
    (operaMem ⟨true, false, w⟩ bar offset modValue isWrite).ret = some 1
      ∧ (operaMem ⟨true, false, w⟩ bar offset modValue isWrite).trace
        = [.openDevMem true, .mmap 4096 bar false, .perror "mmap error:\n"]
      ∧ Event.close ∉ (operaMem ⟨true, false, w⟩ bar offset modValue isWrite).trace
      ∧ heldAfter (operaMem ⟨true, false, w⟩ bar offset modValue isWrite).trace
        = ⟨true, false⟩ := by
  have e : operaMem ⟨true, false, w⟩ bar offset modValue isWrite
      = { ret := some 1
          trace := [.openDevMem true, .mmap 4096 bar false, .perror "mmap error:\n"]
          window := w } := by
    unfold operaMem
    simp
  rw [e]
  refine ⟨rfl, rfl, ?_, rfl⟩
  simp

/-- C7 (contradicted as stated): with `open` and `mmap` both succeeding and
offset 4093, the 4-byte access leaves the 4096-byte mapping and `operaMem` has
no return value, so "returns 0 if and only if both succeed" fails; `main`
reaches this with the options `-p 1 -a 1000`, which pass offset 0x1000. -/
theorem operaMem_outside_window :
    (operaMem ⟨true, true, fun _ => 0⟩ 0x1000 4093 0 0).ret = none
      ∧ ¬ ((operaMem ⟨true, true, fun _ => 0⟩ 0x1000 4093 0 0).ret = some 0
            ↔ ((⟨true, true, fun _ => 0⟩ : DevMem).openOk = true
                ∧ (⟨true, true, fun _ => 0⟩ : DevMem).mmapOk = true))
      ∧ Event.operaMem 0x1000 0x1000 0 0
          ∈ (main ⟨atoiDec, fun _ => 0xFEBC0004, ⟨true, true, fun _ => 0⟩⟩
              [('p', cstr "1"), ('a', cstr "1000")]).trace
      ∧ (main ⟨atoiDec, fun _ => 0xFEBC0004, ⟨true, true, fun _ => 0⟩⟩
            [('p', cstr "1"), ('a', cstr "1000")]).exit = none := by
  decide

/-- C7 (amended): for an offset in 0..4092, `operaMem` returns 0 if and only if
both `open` and `mmap` succeed; for every offset, a return of 0 implies that
both succeeded, a failed `open` gives -1 with no `mmap` attempted, and a failed
`mmap` after a successful `open` gives 1; in both failure cases the window is
neither read nor written, no value is printed, and the window is unchanged. -/
theorem operaMem_outcomes (d : DevMem) (bar offset modValue isWrite : Int) :
    (0 ≤ offset → offset ≤ 4092 →
        ((operaMem d bar offset modValue isWrite).ret = some 0
          ↔ (d.openOk = true ∧ d.mmapOk = true)))
      ∧ ((operaMem d bar offset modValue isWrite).ret = some 0 →
        d.openOk = true ∧ d.mmapOk = true)
      ∧ (d.openOk = false →
        (operaMem d bar offset modValue isWrite).ret = some (-1)
        ∧ (operaMem d bar offset modValue isWrite).trace
          = [.openDevMem false, .perror "open error\n"]
        ∧ (∀ l o k, Event.mmap l o k ∉ (operaMem d bar offset modValue isWrite).trace)
        ∧ (operaMem d bar offset modValue isWrite).trace.filter isMemAccess = []
        ∧ (operaMem d bar offset modValue isWrite).trace.filter isPrintf = []
        ∧ (operaMem d bar offset modValue isWrite).window = d.window)
      ∧ (d.openOk = true → d.mmapOk = false →
        (operaMem d bar offset modValue isWrite).ret = some 1
        ∧ (operaMem d bar offset modValue isWrite).trace
          = [.openDevMem true, .mmap 4096 bar false, .perror "mmap error:\n"]
        ∧ (operaMem d bar offset modValue isWrite).trace.filter isMemAccess = []
        ∧ (operaMem d bar offset modValue isWrite).trace.filter isPrintf = []
        ∧ (operaMem d bar offset modValue isWrite).window = d.window) := by
  have only_if : (operaMem d bar offset modValue isWrite).ret = some 0 →
      d.openOk = true ∧ d.mmapOk = true := by
    intro h
    cases ho : d.openOk
    · unfold operaMem at h
      simp [ho] at h
    · cases hm : d.mmapOk
      · unfold operaMem at h
        simp [ho, hm] at h
      · exact ⟨rfl, rfl⟩
  have if_inside : d.openOk = true → d.mmapOk = true → 0 ≤ offset → offset ≤ 4092 →
      (operaMem d bar offset modValue isWrite).ret = some 0 := by
    intro ho hm h0 h1
    have hpre := loadInt_inside d.window offset h0 h1
    have hs := storeInt_inside d.window offset (u32 modValue) h0 h1
    by_cases hw : isWrite = 1
    · subst hw
      exact (operaMem_write_eq d bar offset modValue ho hm h0 h1 _ hpre _ hs).1
    · exact (operaMem_read_eq d bar offset modValue isWrite ho hm hw _ hpre).1
  refine ⟨fun h0 h1 => ⟨only_if, fun h => if_inside h.1 h.2 h0 h1⟩, only_if, ?_, ?_⟩
  · intro ho
    have e : operaMem d bar offset modValue isWrite
        = { ret := some (-1)
            trace := [.openDevMem false, .perror "open error\n"]
            window := d.window } := by
      unfold operaMem
      simp [ho]
    rw [e]
    refine ⟨rfl, rfl, ?_, rfl, rfl, rfl⟩
    intro l o k
    simp
  · intro ho hm
    have e : operaMem d bar offset modValue isWrite
        = { ret := some 1
            trace := [.openDevMem true, .mmap 4096 bar false, .perror "mmap error:\n"]
            window := d.window } := by
      unfold operaMem
      simp [ho, hm]
    rw [e]
    exact ⟨rfl, rfl, rfl, rfl, rfl⟩


/-- Instance of C7 (amended) at offset 4092 with `open` and `mmap` succeeding. -/
theorem operaMem_outcomes_witness :
    (0 : Int) ≤ 4092 ∧ (4092 : Int) ≤ 4092
      ∧ ((operaMem ⟨true, true, fun _ => 0⟩ 0x1000 4092 0 0).ret = some 0
          ↔ ((⟨true, true, fun _ => 0⟩ : DevMem).openOk = true
              ∧ (⟨true, true, fun _ => 0⟩ : DevMem).mmapOk = true)) :=
  ⟨by norm_num, by norm_num,
    (operaMem_outcomes ⟨true, true, fun _ => 0⟩ 0x1000 4092 0 0).1 (by norm_num) (by norm_num)⟩

/-! ## parseInt -/

theorem cstr_lower_digits : cstr "0123456789abcdef"
    = [48, 49, 50, 51, 52, 53, 54, 55, 56, 57, 97, 98, 99, 100, 101, 102] := by decide

theorem cstr_upper_digits : cstr "0123456789ABCDEF"
    = [48, 49, 50, 51, 52, 53, 54, 55, 56, 57, 65, 66, 67, 68, 69, 70] := by decide

/-- A byte with a hexadecimal digit value is an ASCII character. -/
theorem hexDigitValue_lt (b d : Nat) (h : hexDigitValue b = some d) : b < 128 := by
  unfold hexDigitValue at h
  rw [cstr_lower_digits, cstr_upper_digits] at h
  by_contra hb
  have n1 : b ∉ [48, 49, 50, 51, 52, 53, 54, 55, 56, 57, 97, 98, 99, 100, 101, 102] := by
    intro hmem; simp at hmem; omega
  have n2 : b ∉ [48, 49, 50, 51, 52, 53, 54, 55, 56, 57, 65, 66, 67, 68, 69, 70] := by
    intro hmem; simp at hmem; omega
  have i1 := List.indexOf_eq_length.mpr n1
  have i2 := List.indexOf_eq_length.mpr n2
  simp [i1, i2] at h

set_option maxRecDepth 100000 in
/-- On every ASCII byte that is a hexadecimal digit, the digit conversion of
the loop body yields the digit value, and the byte is not the terminator. -/
theorem hexDigit_table : ∀ b : Nat, b < 128 →
    hexDigitValue b = none ∨
      (schar b ≠ 0 ∧ (hexDigitValue b).getD 0 < 16 ∧
        (if chr 'A' ≤ schar b ∧ schar b ≤ chr 'F' then toChar (schar b - chr 'A' + 10)
         else if chr 'a' ≤ schar b ∧ schar b ≤ chr 'f' then toChar (schar b - chr 'a' + 10)
         else toChar (schar b - chr '0')) = (((hexDigitValue b).getD 0 : Nat) : Int)) := by
  decide

theorem parseIntLoop_digit (b d : Nat) (rest : CStr) (value : Int)
    (h : hexDigitValue b = some d) :
    d < 16 ∧ parseIntLoop (b :: rest) value = parseIntLoop rest (i32 (value * 16 + d)) := by
  have t := hexDigit_table b (hexDigitValue_lt b d h)
  rw [h] at t
  simp only [reduceCtorEq, false_or, Option.getD_some] at t
  obtain ⟨t0, t1, t2⟩ := t
  refine ⟨t1, ?_⟩
  rw [parseIntLoop]
  simp only [t0, if_false]
  rw [t2]

theorem hexNumeralValue_lt : ∀ (s : CStr) (n : Nat), hexNumeralValue s = some n →
    n < 16 ^ s.length := by
  intro s
  induction s with
  | nil => intro n h; simp [hexNumeralValue] at h; subst h; simp
  | cons b rest ih =>
    intro n h
    unfold hexNumeralValue at h
    cases hd : hexDigitValue b with
    | none => simp [hd] at h
    | some d =>
      cases hr : hexNumeralValue rest with
      | none => simp [hd, hr] at h
      | some r =>
        simp [hd, hr] at h
        have hd16 := (parseIntLoop_digit b d [] 0 hd).1
        have hr16 := ih r hr
        subst h
        rw [List.length_cons, pow_succ]
        nlinarith

/-- The loop of `parseInt` on a string of hexadecimal digits, as long as the
accumulated value stays below 2^31. -/
theorem parseIntLoop_hex : ∀ (s : CStr) (n : Nat) (acc : Nat),
    hexNumeralValue s = some n → acc * 16 ^ s.length + n < 2147483648 →
    parseIntLoop s acc = ((acc * 16 ^ s.length + n : Nat) : Int) := by
  intro s
  induction s with
  | nil =>
    intro n acc h _
    simp [hexNumeralValue] at h
    subst h
    simp [parseIntLoop]
  | cons b rest ih =>
    intro n acc h hb
    unfold hexNumeralValue at h
    cases hd : hexDigitValue b with
    | none => simp [hd] at h
    | some d =>
      cases hr : hexNumeralValue rest with
      | none => simp [hd, hr] at h
      | some r =>
        simp [hd, hr] at h
        subst h
        obtain ⟨hd16, hstep⟩ := parseIntLoop_digit b d rest acc hd
        have hr16 := hexNumeralValue_lt rest r hr
        have hp : 0 < 16 ^ rest.length := by positivity
        rw [List.length_cons, pow_succ] at hb
        have hacc : acc * 16 + d < 2147483648 := by nlinarith
        have e : i32 ((acc : Int) * 16 + d) = ((acc * 16 + d : Nat) : Int) := by
          unfold i32; omega
        have hb2 : (acc * 16 + d) * 16 ^ rest.length + r < 2147483648 := by nlinarith
        have hrec := ih r (acc * 16 + d) hr hb2
        have harith : (acc * 16 + d) * 16 ^ rest.length + r
            = acc * 16 ^ (b :: rest).length + (d * 16 ^ rest.length + r) := by
          rw [List.length_cons, pow_succ]
          ring
        rw [hstep, e]
        exact hrec.trans (congrArg Nat.cast harith)

/-- C8 (contradicted as stated): with the prefix "0x" the character x is taken
as a digit of value 72, so `parseInt("0x10")` is 0x4810 = 18448, not 16, and
`parseInt("0x1234")` is 4723252, not 4660. -/
theorem parseInt_0x_numeral :
    parseInt (cstr "0x10") = 18448 ∧ parseInt (cstr "0x10") ≠ 0x10
      ∧ parseInt (cstr "0x1234") = 4723252 ∧ parseInt (cstr "0x1234") ≠ 0x1234 := by
  decide

/-- C8 (amended): for every numeral of 1 to 7 hexadecimal digits in either
case, written without a "0x" prefix, `parseInt` returns the numeral's base-16
value; `parseInt("10") = 16` and `parseInt("1234") = 4660`, so the options
`-a 10 -v 1234` set the offset 0x10 and the value 0x1234 to write. -/
theorem parseInt_hex_digits :
    (∀ (s : CStr) (n : Nat), 1 ≤ s.length → s.length ≤ 7 → hexNumeralValue s = some n →
        parseInt s = (n : Int))
      ∧ parseInt (cstr "10") = 0x10
      ∧ parseInt (cstr "1234") = 0x1234
      ∧ (∀ atoi : CStr → Int,
          getoptLoop atoi [('a', cstr "10"), ('v', cstr "1234")] Vars.init
            = some { Vars.init with addr := 0x10, value := 0x1234, isWrite := 1 }) := by
  refine ⟨?_, by decide, by decide, ?_⟩
  · intro s n _ h7 h
    have hn := hexNumeralValue_lt s n h
    have hp : 16 ^ s.length ≤ 16 ^ 7 := Nat.pow_le_pow_right (by norm_num) h7
    have := parseIntLoop_hex s n 0 h (by norm_num at hp ⊢; omega)
    unfold parseInt
    simpa using this
  · intro atoi
    have e1 : parseInt (cstr "10") = 0x10 := by decide
    have e2 : parseInt (cstr "1234") = 0x1234 := by decide
    simp [getoptLoop, optCase, e1, e2, Vars.init]

/-- Instance of C8 (amended) at the mixed-case numeral 1aF. -/
theorem parseInt_hex_digits_witness :
    1 ≤ (cstr "1aF").length ∧ (cstr "1aF").length ≤ 7 ∧ hexNumeralValue (cstr "1aF") = some 431
      ∧ parseInt (cstr "1aF") = ((431 : Nat) : Int) :=
  ⟨by decide, by decide, by decide,
    parseInt_hex_digits.1 (cstr "1aF") 431 (by decide) (by decide) (by decide)⟩


/-! ## main -/

theorem dumpLoop_step (m : Machine) (bus dev fn : Int) (latch i : Nat) (h : i < 64) :
    dumpLoop m bus dev fn latch i
      = [.outl (PCI_CONFIG_ADDR bus dev fn i) ADDR_CONFIG_REG,
          .inl DATA_CONFIG_REG (m.pciConf (PCI_CONFIG_ADDR bus dev fn i) % 4294967296),
          .printf "PCI:Bus %d, DEV %d, FUNC %d, REG %x, Value is %x\n"
            [bus, dev, fn, (i : Int),
              ((m.pciConf (PCI_CONFIG_ADDR bus dev fn i) % 4294967296 : Nat) : Int)]]
        ++ dumpLoop m bus dev fn (PCI_CONFIG_ADDR bus dev fn i) (i + 4) := by
  rw [dumpLoop]
  simp [h, outl, inl]

theorem dumpLoop_done (m : Machine) (bus dev fn : Int) (latch i : Nat) (h : 64 ≤ i) :
    dumpLoop m bus dev fn latch i = [] := by
  rw [dumpLoop]
  simp [Nat.not_lt.mpr h]

/-- The register dump unrolled: one address write, one data read and one
printed line for each of the offsets 0, 4, ..., 60. -/
theorem dumpLoop_eq (m : Machine) (bus dev fn : Int) :
    dumpLoop m bus dev fn 0 0
      = dumpOffsets.flatMap (fun i =>
          [.outl (PCI_CONFIG_ADDR bus dev fn (i : Int)) ADDR_CONFIG_REG,
            .inl DATA_CONFIG_REG (m.pciConf (PCI_CONFIG_ADDR bus dev fn (i : Int)) % 4294967296),
            .printf "PCI:Bus %d, DEV %d, FUNC %d, REG %x, Value is %x\n"
              [bus, dev, fn, (i : Int),
                ((m.pciConf (PCI_CONFIG_ADDR bus dev fn (i : Int)) % 4294967296 : Nat) : Int)]]) := by
  rw [dumpLoop_step m bus dev fn _ 0 (by norm_num), dumpLoop_step m bus dev fn _ (0 + 4) (by norm_num),
    dumpLoop_step m bus dev fn _ (0 + 4 + 4) (by norm_num),
    dumpLoop_step m bus dev fn _ (0 + 4 + 4 + 4) (by norm_num),
    dumpLoop_step m bus dev fn _ (0 + 4 + 4 + 4 + 4) (by norm_num),
    dumpLoop_step m bus dev fn _ (0 + 4 + 4 + 4 + 4 + 4) (by norm_num),
    dumpLoop_step m bus dev fn _ (0 + 4 + 4 + 4 + 4 + 4 + 4) (by norm_num),
    dumpLoop_step m bus dev fn _ (0 + 4 + 4 + 4 + 4 + 4 + 4 + 4) (by norm_num),
    dumpLoop_step m bus dev fn _ (0 + 4 + 4 + 4 + 4 + 4 + 4 + 4 + 4) (by norm_num),
    dumpLoop_step m bus dev fn _ (0 + 4 + 4 + 4 + 4 + 4 + 4 + 4 + 4 + 4) (by norm_num),
    dumpLoop_step m bus dev fn _ (0 + 4 + 4 + 4 + 4 + 4 + 4 + 4 + 4 + 4 + 4) (by norm_num),
    dumpLoop_step m bus dev fn _ (0 + 4 + 4 + 4 + 4 + 4 + 4 + 4 + 4 + 4 + 4 + 4) (by norm_num),
    dumpLoop_step m bus dev fn _ (0 + 4 + 4 + 4 + 4 + 4 + 4 + 4 + 4 + 4 + 4 + 4 + 4) (by norm_num),
    dumpLoop_step m bus dev fn _ (0 + 4 + 4 + 4 + 4 + 4 + 4 + 4 + 4 + 4 + 4 + 4 + 4 + 4) (by norm_num),
    dumpLoop_step m bus dev fn _ (0 + 4 + 4 + 4 + 4 + 4 + 4 + 4 + 4 + 4 + 4 + 4 + 4 + 4 + 4)
      (by norm_num),
    dumpLoop_step m bus dev fn _ (0 + 4 + 4 + 4 + 4 + 4 + 4 + 4 + 4 + 4 + 4 + 4 + 4 + 4 + 4 + 4)
      (by norm_num),
    dumpLoop_done m bus dev fn _ _ (by norm_num)]
  simp [dumpOffsets, List.flatMap]

/-- The port instructions of the register dump. -/
theorem dumpLoop_port_ops (m : Machine) (bus dev fn : Int) :
    (dumpLoop m bus dev fn 0 0).filter isPortOp
      = dumpOffsets.flatMap (fun i =>
          [.outl (PCI_CONFIG_ADDR bus dev fn (i : Int)) ADDR_CONFIG_REG,
            .inl DATA_CONFIG_REG (m.pciConf (PCI_CONFIG_ADDR bus dev fn (i : Int)) % 4294967296)]) := by
  rw [dumpLoop_eq]
  simp [List.filter, isPortOp, dumpOffsets, List.flatMap]

/-- Options other than `-v` and `-p` leave `isWrite` and `isReadBar` as they are. -/
theorem getoptLoop_flags (atoi : CStr → Int) : ∀ (opts : List (Char × CStr)) (v0 v : Vars),
    (∀ o ∈ opts, o.1 ≠ 'v' ∧ o.1 ≠ 'p') → getoptLoop atoi opts v0 = some v →
    v.isWrite = v0.isWrite ∧ v.isReadBar = v0.isReadBar := by
  intro opts
  induction opts with
  | nil =>
    intro v0 v _ h
    simp [getoptLoop] at h
    subst h
    exact ⟨rfl, rfl⟩
  | cons o rest ih =>
    intro v0 v hopts h
    have ho := hopts o (List.mem_cons_self _ _)
    have hrest : ∀ x ∈ rest, x.1 ≠ 'v' ∧ x.1 ≠ 'p' :=
      fun x hx => hopts x (List.mem_cons_of_mem _ hx)
    rw [getoptLoop] at h
    cases hc : optCase atoi v0 o.1 o.2 with
    | none => simp [hc] at h
    | some v1 =>
      simp only [hc] at h
      obtain ⟨i1, i2⟩ := ih v1 v hrest h
      unfold optCase at hc
      split_ifs at hc with c1 c2 c3 c4 c5 c6 c7
      all_goals first
        | exact absurd c6 ho.2
        | exact absurd c7 ho.1
        | (injection hc with hc; subst hc; exact ⟨i1, i2⟩)

/-- C3: when neither `-v` nor `-p` is among the options and the option loop
completes with the values bus, dev and fn, the port operations of `main` are
exactly, for i = 0, 4, ..., 60 in increasing order, one write of
`PCI_CONFIG_ADDR(bus, dev, fn, i)` to port 0x0CF8 followed by one read of port
0x0CFC; `main` then returns 0. -/
theorem main_dump_port_ops (m : Machine) (opts : List (Char × CStr)) (v : Vars)
    (hopts : ∀ o ∈ opts, o.1 ≠ 'v' ∧ o.1 ≠ 'p')
    (hv : getoptLoop m.atoi opts Vars.init = some v) :
    (main m opts).trace.filter isPortOp
        = dumpOffsets.flatMap (fun i =>
          [.outl (PCI_CONFIG_ADDR v.bus v.dev v.fn (i : Int)) 0x0CF8,
            .inl 0x0CFC (m.pciConf (PCI_CONFIG_ADDR v.bus v.dev v.fn (i : Int)) % 4294967296)])
      ∧ ((main m opts).trace.filter isPortOp).length = 2 * 16
      ∧ (main m opts).exit = some 0 := by
  obtain ⟨f1, f2⟩ := getoptLoop_flags m.atoi opts Vars.init v hopts hv
  have g1 : v.isWrite = 0 := f1
  have g2 : v.isReadBar = 0 := f2
  have e : main m opts = { exit := some 0
                           trace := .iopl 3 :: dumpLoop m v.bus v.dev v.fn 0 0
                           window := m.devMem.window } := by
    unfold main
    rw [hv]
    simp [mainBody, g1, g2]
  have p := dumpLoop_port_ops m v.bus v.dev v.fn
  have t : (main m opts).trace.filter isPortOp = (dumpLoop m v.bus v.dev v.fn 0 0).filter isPortOp := by
    rw [e]
    simp [List.filter, isPortOp]
  rw [t, p]
  refine ⟨rfl, ?_, by rw [e]⟩
  simp [dumpOffsets, List.flatMap]

/-- Instance of C3 for the options -b 0 -d 25. -/
theorem main_dump_port_ops_witness :
    (∀ o ∈ [('b', cstr "0"), ('d', cstr "25")], o.1 ≠ 'v' ∧ o.1 ≠ 'p')
      ∧ getoptLoop atoiDec [('b', cstr "0"), ('d', cstr "25")] Vars.init
          = some { Vars.init with bus := 0, dev := 25 }
      ∧ (main ⟨atoiDec, fun _ => 0xFEBC0004, ⟨true, true, fun _ => 0⟩⟩
            [('b', cstr "0"), ('d', cstr "25")]).trace.filter isPortOp
        = dumpOffsets.flatMap (fun i =>
          [.outl (PCI_CONFIG_ADDR 0 25 0 (i : Int)) 0x0CF8,
            .inl 0x0CFC (0xFEBC0004 % 4294967296)]) :=
  ⟨by decide, by decide,
    (main_dump_port_ops ⟨atoiDec, fun _ => 0xFEBC0004, ⟨true, true, fun _ => 0⟩⟩
      [('b', cstr "0"), ('d', cstr "25")] { Vars.init with bus := 0, dev := 25 }
      (by decide) (by decide)).1⟩


/-- No event of `operaMem` is a port instruction. -/
theorem operaMem_no_port_op (d : DevMem) (bar offset modValue isWrite : Int) :
    ∀ e ∈ (operaMem d bar offset modValue isWrite).trace, isPortOp e = false := by
  intro e he
  unfold operaMem at he
  split_ifs at he
  · simp at he; rcases he with rfl | rfl <;> rfl
  · simp at he; rcases he with rfl | rfl | rfl <;> rfl
  · split at he
    · simp at he; rcases he with rfl | rfl <;> rfl
    · split at he
      · simp at he; rcases he with rfl | rfl | rfl | rfl | rfl <;> rfl
      · split at he
        · simp at he; rcases he with rfl | rfl | rfl | rfl | rfl | rfl <;> rfl
        · simp at he
          rcases he with rfl | rfl | rfl | rfl | rfl | rfl | rfl | rfl | rfl | rfl <;> rfl
  · split at he
    · simp at he; rcases he with rfl | rfl <;> rfl
    · simp at he; rcases he with rfl | rfl | rfl | rfl | rfl | rfl <;> rfl

/-- The body of `main` never reads the variable `reg`. -/
theorem mainBody_reg (m : Machine) (v : Vars) (r : Int) :
    mainBody m { v with reg := r } = mainBody m v := rfl

/-- One pass of the `switch` on two states that agree except for `reg`, with
the same option and arguments that agree unless the option is `-r`. -/
theorem optCase_reg (atoi : CStr → Int) (v1 v2 : Vars) (opt : Char) (a1 a2 : CStr)
    (hv : { v1 with reg := 0 } = { v2 with reg := 0 }) (ha : opt ≠ 'r' → a1 = a2) :
    (optCase atoi v1 opt a1).map (fun v => { v with reg := 0 })
      = (optCase atoi v2 opt a2).map (fun v => { v with reg := 0 }) := by
  simp only [Vars.mk.injEq, and_true, true_and] at hv
  obtain ⟨h1, h2, h3, h4, h5, h6, h7, h8⟩ := hv
  unfold optCase
  by_cases hr : opt = 'r'
  · subst hr
    simp [h1, h2, h3, h4, h5, h6, h7, h8]
  · have := ha hr
    subst this
    split_ifs <;> simp [h1, h2, h3, h4, h5, h6, h7, h8]

theorem getoptLoop_reg (atoi : CStr → Int) : ∀ (opts1 opts2 : List (Char × CStr)) (v1 v2 : Vars),
    List.Forall₂ (fun a b => a.1 = b.1 ∧ (a.1 ≠ 'r' → a.2 = b.2)) opts1 opts2 →
    { v1 with reg := 0 } = { v2 with reg := 0 } →
    (getoptLoop atoi opts1 v1).map (fun v => { v with reg := 0 })
      = (getoptLoop atoi opts2 v2).map (fun v => { v with reg := 0 }) := by
  intro opts1
  induction opts1 with
  | nil =>
    intro opts2 v1 v2 h hv
    cases h
    simp [getoptLoop, hv]
  | cons a l1 ih =>
    intro opts2 v1 v2 h hv
    obtain ⟨b, l2, hab, hrest, rfl⟩ := List.forall₂_cons_left_iff.mp h
    have hc := optCase_reg atoi v1 v2 a.1 a.2 b.2 hv hab.2
    rw [getoptLoop, getoptLoop, ← hab.1]
    cases c1 : optCase atoi v1 a.1 a.2 with
    | none =>
      cases c2 : optCase atoi v2 a.1 b.2 with
      | none => rfl
      | some w2 => rw [c1, c2] at hc; simp at hc
    | some w1 =>
      cases c2 : optCase atoi v2 a.1 b.2 with
      | none => rw [c1, c2] at hc; simp at hc
      | some w2 =>
        rw [c1, c2] at hc
        simp only [Option.map_some', Option.some.injEq] at hc
        exact ih l2 w1 w2 hrest hc

/-- C10: two runs of `main` whose options differ only in the argument of `-r`
have the same outcome: the same events in the same order (port writes and
reads with their addresses, the call of `operaMem` with its base, offset,
value and mode) and the same exit status; and every value written to a port
goes to 0x0CF8 and is `PCI_CONFIG_ADDR(bus, dev, fn, i)` with i one of
0, 4, ..., 60 or the constant 0x10. -/
theorem main_ignores_reg (m : Machine) (opts1 opts2 : List (Char × CStr))
    (h : List.Forall₂ (fun a b => a.1 = b.1 ∧ (a.1 ≠ 'r' → a.2 = b.2)) opts1 opts2) :
    main m opts1 = main m opts2
      ∧ ∀ v, getoptLoop m.atoi opts1 Vars.init = some v →
          ∀ value port, Event.outl value port ∈ (main m opts1).trace →
            port = 0x0CF8 ∧ ∃ i : Nat, (i ∈ dumpOffsets ∨ i = 0x10)
              ∧ value = PCI_CONFIG_ADDR v.bus v.dev v.fn (i : Int) := by
  constructor
  · have hg := getoptLoop_reg m.atoi opts1 opts2 Vars.init Vars.init h rfl
    unfold main
    cases c1 : getoptLoop m.atoi opts1 Vars.init with
    | none =>
      cases c2 : getoptLoop m.atoi opts2 Vars.init with
      | none => rfl
      | some w2 => rw [c1, c2] at hg; simp at hg
    | some w1 =>
      cases c2 : getoptLoop m.atoi opts2 Vars.init with
      | none => rw [c1, c2] at hg; simp at hg
      | some w2 =>
        rw [c1, c2] at hg
        simp only [Option.map_some', Option.some.injEq] at hg
        show mainBody m w1 = mainBody m w2
        rw [← mainBody_reg m w1 0, ← mainBody_reg m w2 0, hg]
  · intro v hv value port hmem
    have e : main m opts1 = mainBody m v := by unfold main; rw [hv]
    rw [e] at hmem
    unfold mainBody at hmem
    have hbar : ∀ modValue isWrite,
        Event.outl value port ∈ (barAccess m v 0 modValue isWrite).trace →
        port = 0x0CF8 ∧ ∃ i : Nat, (i ∈ dumpOffsets ∨ i = 0x10)
          ∧ value = PCI_CONFIG_ADDR v.bus v.dev v.fn (i : Int) := by
      intro modValue isWrite hm
      unfold barAccess at hm
      simp only [List.cons_append, List.nil_append, List.mem_cons, reduceCtorEq, false_or,
        Event.outl.injEq] at hm
      rcases hm with ⟨rfl, rfl⟩ | hm
      · exact ⟨rfl, 0x10, Or.inr rfl, rfl⟩
      · have := operaMem_no_port_op _ _ _ _ _ _ hm
        simp [isPortOp] at this
    split_ifs at hmem
    · simp only [List.mem_cons, reduceCtorEq, false_or] at hmem
      rw [dumpLoop_eq, List.mem_flatMap] at hmem
      obtain ⟨i, hi, hmem⟩ := hmem
      simp only [List.mem_cons, Event.outl.injEq, reduceCtorEq, List.mem_singleton, or_false,
        List.not_mem_nil] at hmem
      obtain ⟨rfl, rfl⟩ := hmem
      exact ⟨rfl, i, Or.inl hi, rfl⟩
    · exact hbar _ _ hmem
    · exact hbar _ _ hmem

/-- Instance of C10 for the options -d 25 -r 4 against -d 25 -r 3c. -/
theorem main_ignores_reg_witness :
    List.Forall₂ (fun (a b : Char × CStr) => a.1 = b.1 ∧ (a.1 ≠ 'r' → a.2 = b.2))
        [('d', cstr "25"), ('r', cstr "4")] [('d', cstr "25"), ('r', cstr "3c")]
      ∧ main ⟨atoiDec, fun _ => 0xFEBC0004, ⟨true, true, fun _ => 0⟩⟩
          [('d', cstr "25"), ('r', cstr "4")]
        = main ⟨atoiDec, fun _ => 0xFEBC0004, ⟨true, true, fun _ => 0⟩⟩
          [('d', cstr "25"), ('r', cstr "3c")] :=
  have hrel : List.Forall₂ (fun (a b : Char × CStr) => a.1 = b.1 ∧ (a.1 ≠ 'r' → a.2 = b.2))
      [('d', cstr "25"), ('r', cstr "4")] [('d', cstr "25"), ('r', cstr "3c")] :=
    List.Forall₂.cons ⟨rfl, fun _ => rfl⟩
      (List.Forall₂.cons ⟨rfl, fun hne => absurd rfl hne⟩ List.Forall₂.nil)
  ⟨hrel, (main_ignores_reg _ _ _ hrel).1⟩

/-- Whatever the configuration read returns, the BAR branch calls `operaMem`
with base `port * 0x1000` and offset `addr`. -/
theorem barAccess_call (m : Machine) (v : Vars) (modValue isWrite : Int) :
    Event.operaMem (i32 (v.port * 0x1000)) v.addr modValue isWrite
      ∈ (barAccess m v 0 modValue isWrite).trace := by
  have e : i32 (i32 (v.port * 0x1000)) = i32 (v.port * 0x1000) := by
    unfold i32; omega
  unfold barAccess
  simp [e]

/-- C2 (violated by the code): `pointAddr` is computed while `val` is still 0,
before BAR0 is read. With BAR0 = 0xFEBC0004 and the options
`-b 0 -d 25 -p 1 -a 10`, `main` reads BAR0 at register 0x10, prints the masked
base 0xFEBC0000, and then calls `operaMem(0x1000, 0x10, 0, 0)`: the address
mapped and accessed is 0x1010, not (BAR0 & ~0xF) + 0x1000 + 0x10 = 0xFEBC1010. -/
theorem main_bar_base_unused :
    (main ⟨atoiDec, fun _ => 0xFEBC0004, ⟨true, true, fun _ => 0⟩⟩
        [('b', cstr "0"), ('d', cstr "25"), ('p', cstr "1"), ('a', cstr "10")]).trace
      = [.iopl 3, .outl (PCI_CONFIG_ADDR 0 25 0 0x10) 0x0CF8, .inl 0x0CFC 0xFEBC0004,
          .printf "The base address value is 0x%x\n" [0xFEBC0000],
          .printf "The offset address value is 0x%x\n" [0x1010],
          .operaMem 0x1000 0x10 0 0,
          .openDevMem true, .mmap 4096 0x1000 true, .load 0x10 0,
          .printf "The value at 0x%x is 0x%x\n" [0x1010, 0],
          .munmap 4096, .close]
      ∧ (0x1000 + 0x10 : Int) ≠ ((0xFEBC0004 &&& 0xFFFFFFF0 : Nat) : Int) + 1 * 0x1000 + 0x10 := by
  decide

end RwPciConf
